import Mathlib

/-!
Verification of `pfmon-1.1/examples/syst.c`, a system-wide performance
monitoring example program.  The program is a single linear `main`:
initialize the pfm library, check the argument count against the counter
capacity, resolve each event name, dispatch events to physical counters,
then drive one monitoring session through the privileged control interface
(create-context, enable, write-PMCs, write-PMDs, start, stop, read-PMDs,
print, destroy-context).  Every failing call aborts via `fatal_error`,
which prints and calls `exit(1)`.

The embedding below models `main` as a pure function from an oracle
`World` (outcomes of the external library / kernel calls) and the argument
list to a `RunResult` holding the exit status, the error (if any), the
trace of operations issued, and the rows printed.  The pfm library and the
kernel are not part of the source tree, so their behavior is modelled from
the specification where a claim depends on it.
-/

/-- `WHICH_CPU` from syst.c line 36: the program always monitors CPU 0. -/
def WHICH_CPU : Nat := 0

/-- The built-in default event list from syst.c lines 38-42
(used when the user supplies no arguments). -/
def event_list : List String := ["cpu_cycles", "IA64_INST_RETIRED"]

/-- syst.c line 111: `p = argc > 1 ? argv+1 : event_list;` —
the names to monitor are the command-line arguments when present,
otherwise the built-in default list. -/
def eventNames (args : List String) : List String :=
  if args.isEmpty then event_list else args

/-- Modelled from the spec: the Event Resolver (`pfm_find_event` of the
pfm library, whose source is not in the tree).  The catalog is a fixed
read-only table; resolution maps a name to its descriptor (here: its
catalog index) and fails when the name matches no entry (§4.1). -/
def pfm_find_event (catalog : List String) (name : String) : Option Nat :=
  match catalog with
  | [] => none
  | c :: rest =>
    if c = name then some 0 else (pfm_find_event rest name).map Nat.succ

/-- Modelled from the spec: the reverse lookup `pfm_get_event_name`
(descriptor to name, §4.1/§6). -/
def pfm_get_event_name (catalog : List String) (e : Nat) : Option String :=
  catalog.get? e

/-- Errors of the Counter Allocator (§4.2, §7). -/
inductive AllocError where
  | TooManyEvents
  | UnsatisfiableConstraint
  deriving DecidableEq, Repr

/-- Modelled from the spec: pick the lowest free eligible register for one
event (§4.2 tie-break: prefer the lowest free register index). -/
def pickReg (elig : Nat → Nat → Bool) (cap : Nat) (used : List Nat)
    (ev : Nat) : Option Nat :=
  (List.range cap).find? (fun r => elig ev r && !(used.contains r))

/-- Modelled from the spec: first-fit-by-request-order allocation loop
(§4.2).  `used` holds registers already taken by earlier events. -/
def allocAux (elig : Nat → Nat → Bool) (cap : Nat) :
    List Nat → List Nat → Except AllocError (List Nat)
  | _, [] => Except.ok []
  | used, ev :: rest =>
    match pickReg elig cap used ev with
    | none => Except.error AllocError.UnsatisfiableConstraint
    | some r =>
      match allocAux elig cap (r :: used) rest with
      | Except.error e => Except.error e
      | Except.ok asg => Except.ok (r :: asg)

/-- Modelled from the spec: the Counter Allocator `pfm_dispatch_events`
(pfm library, source not in the tree).  Fails with `TooManyEvents` when
the request exceeds the platform capacity, otherwise allocates first-fit
in request order; per §9 the design returns exactly one assignment per
requested event. -/
def pfm_dispatch_events (elig : Nat → Nat → Bool) (cap : Nat)
    (events : List Nat) : Except AllocError (List Nat) :=
  if cap < events.length then Except.error AllocError.TooManyEvents
  else allocAux elig cap [] events

/-- No placement conflicts: the first-fit placement of §4.2 finds a
register for every requested event. -/
def noPlacementConflict (elig : Nat → Nat → Bool) (cap : Nat)
    (events : List Nat) : Prop :=
  ∃ asg, allocAux elig cap [] events = Except.ok asg

/-- One operation issued to the pfm library or to the privileged control
interface (the `perfmonctl` operation vocabulary of §6, plus the two
library calls that precede session work). -/
inductive Op where
  | findEvent (name : String)
  | dispatchEvents
  | createContext (cpuMask : Nat)
  | enable
  | writePMCS (regs : List Nat) (count : Nat)
  | writePMDS (writes : List (Nat × Nat)) (count : Nat)
  | start
  | stop
  | readPMDS (regs : List Nat)
  | destroyContext
  deriving DecidableEq, Repr

/-- Session operations are the `perfmonctl` calls; library lookups and
dispatch are not session operations. -/
def Op.isSession : Op → Bool
  | .findEvent _ => false
  | .dispatchEvents => false
  | _ => true

/-- Program-level error causes, one per `fatal_error`/`exit(1)` site of
syst.c. -/
inductive ProgError where
  | InitFailed
  | TooManyEvents
  | UnknownEvent (name : String)
  | DispatchFailed
  | NoPerfmonSupport
  | CreateFailed
  | EnableFailed
  | WritePmcsFailed
  | WritePmdsFailed
  | StartFailed
  | StopFailed
  | ReadFailed
  | DestroyFailed
  deriving DecidableEq, Repr

/-- One printed result row (syst.c lines 243-250): register number,
raw counter value, event name. -/
structure Row where
  reg : Nat
  value : Nat
  name : String
  deriving DecidableEq, Repr

/-- Outcome of one program run: the process exit status, the failure
cause (if any), the trace of operations issued, and the rows printed. -/
structure RunResult where
  exit : Int
  err : Option ProgError
  trace : List Op
  rows : List Row
  deriving DecidableEq, Repr

/-- Oracle for the external collaborators: outcomes of the library and
`perfmonctl` calls, the event catalog, the platform capacity, register
eligibility, and the counter values the kernel returns on read. -/
structure World where
  initOk : Bool
  numCounters : Nat
  catalog : List String
  elig : Nat → Nat → Bool
  createOk : Bool
  noPerfmonSupport : Bool
  enableOk : Bool
  writePmcsOk : Bool
  writePmdsOk : Bool
  startOk : Bool
  stopOk : Bool
  readOk : Bool
  destroyOk : Bool
  readValues : Nat → Nat

/-- The resolution loop of syst.c lines 113-117: call `pfm_find_event` on
each name in order, aborting at the first unknown name.  Returns the
trace of lookups issued and either the resolved descriptors or the
error. -/
def resolveLoop (catalog : List String) :
    List String → List Op × Except ProgError (List Nat)
  | [] => ([], Except.ok [])
  | n :: rest =>
    match pfm_find_event catalog n with
    | none => ([Op.findEvent n], Except.error (ProgError.UnknownEvent n))
    | some e =>
      match resolveLoop catalog rest with
      | (ops, r) => (Op.findEvent n :: ops, r.map (fun l => e :: l))

/-- The PMD write arguments built by syst.c lines 98-99 and 190-192:
`memset(pd, 0, ...)` zeroes every value, then `pd[i].reg_num =
pc[i].reg_num` copies the allocated register numbers, so each assigned
register is paired with initial value 0. -/
def pdArgs (asg : List Nat) : List (Nat × Nat) :=
  asg.map (fun r => (r, 0))

/-- The result rows printed by syst.c lines 243-250: for each requested
event `i` (in request order), the register `pd[i].reg_num`, the value
read back for that register, and the name from `pfm_get_event_name`. -/
def mkRows (w : World) (asg evts : List Nat) : List Row :=
  List.zipWith
    (fun r e =>
      { reg := r, value := w.readValues r,
        name := (pfm_get_event_name w.catalog e).getD "" })
    asg evts

/-- The session operations issued on the all-success path, syst.c lines
171-257, in program order. -/
def successOps (asg : List Nat) : List Op :=
  [Op.createContext (1 <<< WHICH_CPU), Op.enable,
   Op.writePMCS asg asg.length,
   Op.writePMDS (pdArgs asg) asg.length,
   Op.start, Op.stop, Op.readPMDS asg, Op.destroyContext]

/-- The session phase of `main` (syst.c lines 152-259): the `perfmonctl`
calls in program order, each aborting via `fatal_error` (exit status 1)
on failure.  `pre` is the trace accumulated before the session phase.
On the read-failure path (lines 230-233) the `return -1` after
`fatal_error` is dead code: `fatal_error` is declared noreturn (line 47)
and calls `exit(1)` (line 58), so the branch terminates with status 1. -/
def runSession (w : World) (pre : List Op) (evts asg : List Nat) :
    RunResult :=
  if w.createOk = false then
    { exit := 1,
      err := some (if w.noPerfmonSupport then ProgError.NoPerfmonSupport
                   else ProgError.CreateFailed),
      trace := pre ++ [Op.createContext (1 <<< WHICH_CPU)], rows := [] }
  else if w.enableOk = false then
    { exit := 1, err := some ProgError.EnableFailed,
      trace := pre ++ [Op.createContext (1 <<< WHICH_CPU), Op.enable],
      rows := [] }
  else if w.writePmcsOk = false then
    { exit := 1, err := some ProgError.WritePmcsFailed,
      trace := pre ++ [Op.createContext (1 <<< WHICH_CPU), Op.enable,
        Op.writePMCS asg asg.length], rows := [] }
  else if w.writePmdsOk = false then
    { exit := 1, err := some ProgError.WritePmdsFailed,
      trace := pre ++ [Op.createContext (1 <<< WHICH_CPU), Op.enable,
        Op.writePMCS asg asg.length,
        Op.writePMDS (pdArgs asg) asg.length], rows := [] }
  else if w.startOk = false then
    { exit := 1, err := some ProgError.StartFailed,
      trace := pre ++ [Op.createContext (1 <<< WHICH_CPU), Op.enable,
        Op.writePMCS asg asg.length,
        Op.writePMDS (pdArgs asg) asg.length, Op.start], rows := [] }
  else if w.stopOk = false then
    { exit := 1, err := some ProgError.StopFailed,
      trace := pre ++ [Op.createContext (1 <<< WHICH_CPU), Op.enable,
        Op.writePMCS asg asg.length,
        Op.writePMDS (pdArgs asg) asg.length, Op.start, Op.stop],
      rows := [] }
  else if w.readOk = false then
    { exit := 1, err := some ProgError.ReadFailed,
      trace := pre ++ [Op.createContext (1 <<< WHICH_CPU), Op.enable,
        Op.writePMCS asg asg.length,
        Op.writePMDS (pdArgs asg) asg.length, Op.start, Op.stop,
        Op.readPMDS asg], rows := [] }
  else if w.destroyOk = false then
    { exit := 1, err := some ProgError.DestroyFailed,
      trace := pre ++ successOps asg, rows := mkRows w asg evts }
  else
    { exit := 0, err := none,
      trace := pre ++ successOps asg, rows := mkRows w asg evts }

/-- The whole of `main` (syst.c lines 62-260): initialize the library,
check the argument count against the counter capacity, resolve event
names, dispatch events to counters, then run the session phase. -/
def runMain (w : World) (args : List String) : RunResult :=
  if w.initOk = false then
    { exit := 1, err := some ProgError.InitFailed, trace := [], rows := [] }
  else if w.numCounters < args.length then
    { exit := 1, err := some ProgError.TooManyEvents, trace := [],
      rows := [] }
  else
    match resolveLoop w.catalog (eventNames args) with
    | (rops, Except.error e) =>
      { exit := 1, err := some e, trace := rops, rows := [] }
    | (rops, Except.ok evts) =>
      match pfm_dispatch_events w.elig w.numCounters evts with
      | Except.error _ =>
        { exit := 1, err := some ProgError.DispatchFailed,
          trace := rops ++ [Op.dispatchEvents], rows := [] }
      | Except.ok asg =>
        runSession w (rops ++ [Op.dispatchEvents]) evts asg

/-- Modelled from the spec: the kernel-side PMD register file written by
`PFM_WRITE_PMDS` (§6 write-counters).  Writes are applied in order; a
later write to the same register overwrites an earlier one. -/
def writePMDS (s : Nat → Nat) (writes : List (Nat × Nat)) : Nat → Nat :=
  writes.foldl (fun st p => Function.update st p.1 p.2) s

/-- Modelled from the spec: `PFM_READ_PMDS` (§6 read-counters) returns
the current value of each listed register. -/
def readPMDS (s : Nat → Nat) (regs : List Nat) : List Nat :=
  regs.map s

/-- A concrete oracle on which every external call succeeds: the default
catalog, 4 counters, uniform eligibility. -/
def sampleWorld : World :=
  { initOk := true, numCounters := 4,
    catalog := ["cpu_cycles", "IA64_INST_RETIRED"],
    elig := fun _ _ => true,
    createOk := true, noPerfmonSupport := false, enableOk := true,
    writePmcsOk := true, writePmdsOk := true, startOk := true,
    stopOk := true, readOk := true, destroyOk := true,
    readValues := fun r => 100 + r }

/-- A successful allocation run assigns one register per event, all
distinct, all within capacity, and none already used. -/
lemma allocAux_ok_spec (elig : Nat → Nat → Bool) (cap : Nat) :
    ∀ (events used asg : List Nat),
      allocAux elig cap used events = Except.ok asg →
      asg.length = events.length ∧ asg.Nodup ∧
        ∀ r ∈ asg, r < cap ∧ r ∉ used := by
  intro events
  induction events with
  | nil =>
    intro used asg h
    simp [allocAux] at h
    subst h
    simp
  | cons ev rest ih =>
    intro used asg h
    simp only [allocAux] at h
    rcases hp : pickReg elig cap used ev with _ | r
    · rw [hp] at h; exact absurd h (by simp)
    · rw [hp] at h
      dsimp only at h
      rcases ha : allocAux elig cap (r :: used) rest with e | asg'
      · rw [ha] at h; exact absurd h (by simp)
      · rw [ha] at h
        dsimp only at h
        simp only [Except.ok.injEq] at h
        subst h
        obtain ⟨hlen, hnd, hmem⟩ := ih (r :: used) asg' ha
        unfold pickReg at hp
        have hrmem : r < cap := List.mem_range.mp (List.mem_of_find?_eq_some hp)
        have hrp := List.find?_some hp
        simp only [Bool.and_eq_true, Bool.not_eq_true'] at hrp
        have hrused : r ∉ used := by simpa using hrp.2
        refine ⟨by simp [hlen], ?_, ?_⟩
        · refine List.nodup_cons.mpr ⟨?_, hnd⟩
          intro hc
          exact (hmem r hc).2 (List.mem_cons_self r used)
        · intro x hx
          rcases List.mem_cons.mp hx with rfl | hx'
          · exact ⟨hrmem, hrused⟩
          · obtain ⟨h1, h2⟩ := hmem x hx'
            exact ⟨h1, fun hc => h2 (List.mem_cons_of_mem _ hc)⟩

/-- A successful name resolution returns the catalog index of that
name. -/
lemma pfm_find_event_get (catalog : List String) (n : String) :
    ∀ i, pfm_find_event catalog n = some i → catalog.get? i = some n := by
  induction catalog with
  | nil => intro i h; simp [pfm_find_event] at h
  | cons c rest ih =>
    intro i h
    unfold pfm_find_event at h
    by_cases hc : c = n
    · simp [hc] at h
      subst h
      simp [hc]
    · simp only [if_neg hc] at h
      rcases hj : pfm_find_event rest n with _ | j
      · rw [hj] at h; simp at h
      · rw [hj] at h
        simp only [Option.map_some', Option.some.injEq] at h
        subst h
        simpa using ih j hj

/-- A successful resolution loop resolves the names pointwise, in
order. -/
lemma resolveLoop_ok_forall2 (catalog : List String) :
    ∀ (ns : List String) (evts : List Nat),
      (resolveLoop catalog ns).2 = Except.ok evts →
      List.Forall₂ (fun n e => pfm_find_event catalog n = some e) ns evts := by
  intro ns
  induction ns with
  | nil =>
    intro evts h
    simp [resolveLoop] at h
    subst h
    exact List.Forall₂.nil
  | cons n rest ih =>
    intro evts h
    unfold resolveLoop at h
    rcases hf : pfm_find_event catalog n with _ | e
    · rw [hf] at h; simp at h
    · rw [hf] at h
      rcases hr : resolveLoop catalog rest with ⟨ops, r⟩
      rw [hr] at h
      dsimp only at h
      rcases r with er | evts'
      · simp [Except.map] at h
      · simp [Except.map] at h
        subst h
        exact List.Forall₂.cons hf (ih evts' (by rw [hr]))

/-- The resolution loop issues only `findEvent` operations. -/
lemma resolveLoop_ops_shape (catalog : List String) :
    ∀ (ns : List String) (o : Op), o ∈ (resolveLoop catalog ns).1 →
      ∃ n, o = Op.findEvent n := by
  intro ns
  induction ns with
  | nil => intro o h; simp [resolveLoop] at h
  | cons n rest ih =>
    intro o h
    unfold resolveLoop at h
    rcases hf : pfm_find_event catalog n with _ | e
    · rw [hf] at h
      simp at h
      exact ⟨n, h⟩
    · rw [hf] at h
      rcases hr : resolveLoop catalog rest with ⟨ops, r⟩
      rw [hr] at h
      simp at h
      rcases h with rfl | h'
      · exact ⟨n, rfl⟩
      · exact ih o (by rw [hr]; exact h')

/-- The resolution loop issues no session operation. -/
lemma resolveLoop_filter_session (catalog : List String) (ns : List String) :
    ((resolveLoop catalog ns).1).filter Op.isSession = [] := by
  rw [List.filter_eq_nil_iff]
  intro o ho
  obtain ⟨n, rfl⟩ := resolveLoop_ops_shape catalog ns o ho
  simp [Op.isSession]

/-- The only error the resolution loop produces is `UnknownEvent` for a
name that is not in the catalog. -/
lemma resolveLoop_error_unknown (catalog : List String) :
    ∀ (ns : List String) (e : ProgError),
      (resolveLoop catalog ns).2 = Except.error e →
      ∃ n, e = ProgError.UnknownEvent n ∧ pfm_find_event catalog n = none := by
  intro ns
  induction ns with
  | nil => intro e h; simp [resolveLoop] at h
  | cons n rest ih =>
    intro e h
    unfold resolveLoop at h
    rcases hf : pfm_find_event catalog n with _ | ev
    · rw [hf] at h
      simp at h
      exact ⟨n, h.symm, hf⟩
    · rw [hf] at h
      rcases hr : resolveLoop catalog rest with ⟨ops, r⟩
      rw [hr] at h
      dsimp only at h
      rcases r with er | evts'
      · simp [Except.map] at h
        subst h
        exact ih er (by rw [hr])
      · simp [Except.map] at h

/-- When some requested name is not in the catalog, the resolution loop
fails. -/
lemma resolveLoop_error_of_missing (catalog : List String) :
    ∀ (ns : List String), (∃ n ∈ ns, pfm_find_event catalog n = none) →
      ∃ e, (resolveLoop catalog ns).2 = Except.error e := by
  intro ns
  induction ns with
  | nil => rintro ⟨n, hn, -⟩; simp at hn
  | cons n rest ih =>
    rintro ⟨m, hm, hmiss⟩
    unfold resolveLoop
    rcases hf : pfm_find_event catalog n with _ | e
    · exact ⟨ProgError.UnknownEvent n, rfl⟩
    · rcases List.mem_cons.mp hm with rfl | hm'
      · rw [hf] at hmiss; simp at hmiss
      · obtain ⟨e', he'⟩ := ih ⟨m, hm', hmiss⟩
        rcases hr : resolveLoop catalog rest with ⟨ops, r⟩
        rw [hr] at he'
        dsimp only at he'
        subst he'
        exact ⟨e', rfl⟩

/-- Unfolding one kernel counter write. -/
lemma writePMDS_cons (s : Nat → Nat) (r v : Nat) (rest : List (Nat × Nat)) :
    writePMDS s ((r, v) :: rest) = writePMDS (Function.update s r v) rest := rfl

/-- A register not named in the write list keeps its value. -/
lemma writePMDS_not_mem (writes : List (Nat × Nat)) :
    ∀ (s : Nat → Nat) (r : Nat), r ∉ writes.map Prod.fst →
      writePMDS s writes r = s r := by
  induction writes with
  | nil => intro s r _; rfl
  | cons p rest ih =>
    intro s r hr
    rcases p with ⟨a, b⟩
    simp only [List.map_cons, List.mem_cons] at hr
    push_neg at hr
    rw [writePMDS_cons]
    rw [ih _ r hr.2]
    exact Function.update_noteq hr.1 b s

/-- Reading back the written registers immediately after the write (no
intervening operation) returns exactly the written values, provided no
register is written twice. -/
lemma writePMDS_readPMDS (writes : List (Nat × Nat)) :
    ∀ (s : Nat → Nat), (writes.map Prod.fst).Nodup →
      readPMDS (writePMDS s writes) (writes.map Prod.fst) =
        writes.map Prod.snd := by
  induction writes with
  | nil => intro s _; rfl
  | cons p rest ih =>
    intro s hnd
    rcases p with ⟨r, v⟩
    simp only [List.map_cons, List.nodup_cons] at hnd
    rw [writePMDS_cons]
    simp only [List.map_cons, readPMDS, List.map_cons]
    rw [writePMDS_not_mem rest _ r hnd.1, Function.update_same]
    have ht := ih (Function.update s r v) hnd.2
    simp only [readPMDS] at ht
    rw [ht]

/-- When no error occurred, the session phase ran every operation and
produced the result rows. -/
lemma runSession_success (w : World) (pre : List Op) (evts asg : List Nat)
    (h : (runSession w pre evts asg).err = none) :
    runSession w pre evts asg =
      { exit := 0, err := none, trace := pre ++ successOps asg,
        rows := mkRows w asg evts } := by
  unfold runSession at h ⊢
  repeat' split at h
  all_goals simp_all

/-- Structure of an error-free run: resolution and dispatch succeeded,
the trace is the lookups, the dispatch, then the session operations in
program order, the rows pair assigned registers with the requested
events, and the exit status is 0. -/
lemma runMain_success (w : World) (args : List String)
    (h : (runMain w args).err = none) :
    ∃ evts asg,
      (resolveLoop w.catalog (eventNames args)).2 = Except.ok evts ∧
      pfm_dispatch_events w.elig w.numCounters evts = Except.ok asg ∧
      (runMain w args).trace =
        (resolveLoop w.catalog (eventNames args)).1 ++ [Op.dispatchEvents]
          ++ successOps asg ∧
      (runMain w args).rows = mkRows w asg evts ∧
      (runMain w args).exit = 0 := by
  by_cases h1 : w.initOk = false
  · simp [runMain, h1] at h
  by_cases h2 : w.numCounters < args.length
  · simp [runMain, h1, h2] at h
  rcases hr : resolveLoop w.catalog (eventNames args) with ⟨rops, res⟩
  rcases res with e | evts
  · have hx : runMain w args =
        { exit := 1, err := some e, trace := rops, rows := [] } := by
      simp [runMain, h1, h2, hr]
    rw [hx] at h; simp at h
  rcases hd : pfm_dispatch_events w.elig w.numCounters evts with e | asg
  · have hx : runMain w args =
        { exit := 1, err := some ProgError.DispatchFailed,
          trace := rops ++ [Op.dispatchEvents], rows := [] } := by
      simp [runMain, h1, h2, hr, hd]
    rw [hx] at h; simp at h
  have hrm : runMain w args =
      runSession w (rops ++ [Op.dispatchEvents]) evts asg := by
    simp [runMain, h1, h2, hr, hd]
  rw [hrm] at h
  have hs := runSession_success w _ evts asg h
  refine ⟨evts, asg, rfl, hd, ?_, ?_, ?_⟩
  · rw [hrm, hs]
  · rw [hrm, hs]
  · rw [hrm, hs]

/-- The session phase only ever exits with status 0 or 1. -/
lemma runSession_exit (w : World) (pre : List Op) (evts asg : List Nat) :
    (runSession w pre evts asg).exit = 0 ∨
      (runSession w pre evts asg).exit = 1 := by
  unfold runSession
  repeat' split
  all_goals simp

/-- In the session phase, exit status 0 and the absence of an error
coincide. -/
lemma runSession_exit_err (w : World) (pre : List Op) (evts asg : List Nat) :
    ((runSession w pre evts asg).err = none ↔
      (runSession w pre evts asg).exit = 0) := by
  unfold runSession
  repeat' split
  all_goals simp

/-- The session phase never produces the too-many-events error: that
error belongs to the argument-count check alone. -/
lemma runSession_err_not_toomany (w : World) (pre : List Op)
    (evts asg : List Nat) :
    (runSession w pre evts asg).err ≠ some ProgError.TooManyEvents := by
  unfold runSession
  repeat' split
  all_goals simp

/-- Every create-context operation the session phase issues carries the
CPU mask `1 << WHICH_CPU`. -/
lemma runSession_create_mask (w : World) (pre : List Op)
    (evts asg : List Nat) (m : Nat)
    (hpre : ∀ m', Op.createContext m' ∉ pre)
    (h : Op.createContext m ∈ (runSession w pre evts asg).trace) :
    m = 1 <<< WHICH_CPU := by
  unfold runSession at h
  repeat' split at h
  all_goals
    simp only [successOps, List.mem_append, List.mem_cons,
      List.not_mem_nil, or_false] at h
  all_goals
    rcases h with h | h
    · exact absurd h (hpre m)
    · rcases h with h | h <;> simp_all [Op.createContext.injEq]

/-- Case analysis on a run of `main`: it aborts at initialization, at
the argument-count check, at resolution, at dispatch, or enters the
session phase. -/
lemma runMain_cases (w : World) (args : List String)
    (P : RunResult → Prop)
    (hinit : w.initOk = false →
      P { exit := 1, err := some ProgError.InitFailed, trace := [],
          rows := [] })
    (hcap : w.initOk = true → w.numCounters < args.length →
      P { exit := 1, err := some ProgError.TooManyEvents, trace := [],
          rows := [] })
    (hres : w.initOk = true → ¬ w.numCounters < args.length →
      ∀ e, (resolveLoop w.catalog (eventNames args)).2 = Except.error e →
      P { exit := 1, err := some e,
          trace := (resolveLoop w.catalog (eventNames args)).1,
          rows := [] })
    (hdisp : w.initOk = true → ¬ w.numCounters < args.length →
      ∀ evts e, (resolveLoop w.catalog (eventNames args)).2 =
        Except.ok evts →
      pfm_dispatch_events w.elig w.numCounters evts = Except.error e →
      P { exit := 1, err := some ProgError.DispatchFailed,
          trace := (resolveLoop w.catalog (eventNames args)).1
            ++ [Op.dispatchEvents], rows := [] })
    (hsess : w.initOk = true → ¬ w.numCounters < args.length →
      ∀ evts asg, (resolveLoop w.catalog (eventNames args)).2 =
        Except.ok evts →
      pfm_dispatch_events w.elig w.numCounters evts = Except.ok asg →
      P (runSession w ((resolveLoop w.catalog (eventNames args)).1
          ++ [Op.dispatchEvents]) evts asg)) :
    P (runMain w args) := by
  by_cases h1 : w.initOk = false
  · simpa [runMain, h1] using hinit h1
  have h1t : w.initOk = true := by simpa using h1
  by_cases h2 : w.numCounters < args.length
  · simpa [runMain, h1, h2] using hcap h1t h2
  rcases hr : resolveLoop w.catalog (eventNames args) with ⟨rops, res⟩
  rcases res with e | evts
  · have hx : runMain w args =
        { exit := 1, err := some e, trace := rops, rows := [] } := by
      simp [runMain, h1, h2, hr]
    rw [hx]
    have hp := hres h1t h2 e (by rw [hr])
    rw [hr] at hp
    simpa using hp
  · rcases hd : pfm_dispatch_events w.elig w.numCounters evts with e | asg
    · have hx : runMain w args =
          { exit := 1, err := some ProgError.DispatchFailed,
            trace := rops ++ [Op.dispatchEvents], rows := [] } := by
        simp [runMain, h1, h2, hr, hd]
      rw [hx]
      have hp := hdisp h1t h2 evts e (by rw [hr]) hd
      rw [hr] at hp
      simpa using hp
    · have hx : runMain w args =
          runSession w (rops ++ [Op.dispatchEvents]) evts asg := by
        simp [runMain, h1, h2, hr, hd]
      rw [hx]
      have hp := hsess h1t h2 evts asg (by rw [hr]) hd
      rw [hr] at hp
      simpa using hp

/-- The PMD write list pairs exactly the assigned registers (in order)
with their initial values. -/
lemma pdArgs_map_fst (asg : List Nat) : (pdArgs asg).map Prod.fst = asg := by
  induction asg with
  | nil => rfl
  | cons r rest ih => simp_all [pdArgs]

/-- Rows pair the assigned registers with the requested names, in
order, when the events were resolved from those names. -/
lemma mkRows_zipWith_names (w : World) :
    ∀ (ns : List String) (evts asg : List Nat),
      List.Forall₂ (fun n e => pfm_find_event w.catalog n = some e) ns evts →
      mkRows w asg evts =
        List.zipWith
          (fun r n => { reg := r, value := w.readValues r, name := n })
          asg ns := by
  intro ns
  induction ns with
  | nil =>
    intro evts asg h
    cases h
    simp [mkRows]
  | cons n rest ih =>
    intro evts asg h
    cases h with
    | cons hne htl =>
      cases asg with
      | nil => simp [mkRows]
      | cons r asgr =>
        simp only [mkRows, List.zipWith_cons_cons]
        rw [show pfm_get_event_name w.catalog _ = some n from
          pfm_find_event_get w.catalog n _ hne]
        have := ih _ asgr htl
        simp only [mkRows] at this
        rw [this]
        rfl

/-- Claim C1: for every requested sequence of events whose size is at most
the platform's counter capacity and which has no placement conflicts, the
allocation step (`pfm_dispatch_events`) returns exactly one counter
assignment per requested event, with each assigned physical register
index unique within the session and within hardware bounds. -/
theorem dispatch_allocates_one_per_event (elig : Nat → Nat → Bool)
    (cap : Nat) (events : List Nat)
    (hlen : events.length ≤ cap)
    (hconf : noPlacementConflict elig cap events) :
    ∃ asg, pfm_dispatch_events elig cap events = Except.ok asg ∧
      asg.length = events.length ∧ asg.Nodup ∧ ∀ r ∈ asg, r < cap := by
  obtain ⟨asg, ha⟩ := hconf
  refine ⟨asg, ?_, ?_⟩
  · unfold pfm_dispatch_events
    rw [if_neg (by omega), ha]
  · obtain ⟨h1, h2, h3⟩ := allocAux_ok_spec elig cap events [] asg ha
    exact ⟨h1, h2, fun r hr => (h3 r hr).1⟩

/-- Witness for C1 at a concrete input: two events, capacity four,
uniform eligibility. -/
theorem dispatch_allocates_one_per_event_witness :
    (([5, 7] : List Nat).length ≤ 4 ∧
      noPlacementConflict (fun _ _ => true) 4 [5, 7]) ∧
    (∃ asg, pfm_dispatch_events (fun _ _ => true) 4 [5, 7] =
        Except.ok asg ∧
      asg.length = ([5, 7] : List Nat).length ∧ asg.Nodup ∧
      ∀ r ∈ asg, r < 4) :=
  ⟨⟨by decide, ⟨[0, 1], rfl⟩⟩,
   dispatch_allocates_one_per_event (fun _ _ => true) 4 [5, 7]
     (by decide) ⟨[0, 1], rfl⟩⟩

/-- Claim C3: when the requested event count exceeds the platform's
counter capacity, the run fails with the too-many-events error and with
an empty trace: no resolution, no allocation, and no session operation
was issued. -/
theorem too_many_events_rejected_first (w : World) (args : List String)
    (hinit : w.initOk = true)
    (hcap : w.numCounters < args.length) :
    runMain w args =
      { exit := 1, err := some ProgError.TooManyEvents, trace := [],
        rows := [] } := by
  simp [runMain, hinit, hcap]

/-- Witness for C3: five events against four counters. -/
theorem too_many_events_rejected_first_witness :
    (sampleWorld.initOk = true ∧
      sampleWorld.numCounters < (["a", "b", "c", "d", "e"] : List String).length) ∧
    runMain sampleWorld ["a", "b", "c", "d", "e"] =
      { exit := 1, err := some ProgError.TooManyEvents, trace := [],
        rows := [] } :=
  ⟨⟨rfl, by decide⟩,
   too_many_events_rejected_first sampleWorld ["a", "b", "c", "d", "e"]
     rfl (by decide)⟩

/-- Claim C8: the zeroed counter values written during arm and read back
immediately, with no intervening start, equal the written values: every
armed register reads back zero. -/
theorem armed_counters_read_back_zero (s : Nat → Nat) (asg : List Nat)
    (hnd : asg.Nodup) :
    readPMDS (writePMDS s (pdArgs asg)) asg =
      List.replicate asg.length 0 := by
  have h1 : (pdArgs asg).map Prod.fst = asg := pdArgs_map_fst asg
  have h2 : (pdArgs asg).map Prod.snd = List.replicate asg.length 0 := by
    induction asg with
    | nil => rfl
    | cons r rest ih => simp_all [pdArgs, List.replicate]
  have h3 := writePMDS_readPMDS (pdArgs asg) s (by rw [h1]; exact hnd)
  rw [h1, h2] at h3
  exact h3

/-- Witness for C8: two registers, out of numeric order, over an
arbitrary prior register state. -/
theorem armed_counters_read_back_zero_witness :
    ([3, 0] : List Nat).Nodup ∧
    readPMDS (writePMDS (fun _ => 7) (pdArgs [3, 0])) [3, 0] =
      List.replicate ([3, 0] : List Nat).length 0 :=
  ⟨by decide, armed_counters_read_back_zero (fun _ => 7) [3, 0] (by decide)⟩

/-- Claim C10: every run exits with status 0 or 1 — status 0 exactly on
the error-free runs, status 1 on every failure path (`fatal_error` calls
`exit(1)`) — and no run exits with status -1: the `return -1` after the
failed-read `fatal_error` is unreachable. -/
theorem exit_status_zero_or_one (w : World) (args : List String) :
    ((runMain w args).exit = 0 ∨ (runMain w args).exit = 1) ∧
    ((runMain w args).err = none ↔ (runMain w args).exit = 0) ∧
    (runMain w args).exit ≠ -1 := by
  have hmain : ((runMain w args).exit = 0 ∨ (runMain w args).exit = 1) ∧
      ((runMain w args).err = none ↔ (runMain w args).exit = 0) := by
    exact runMain_cases w args
      (fun res => (res.exit = 0 ∨ res.exit = 1) ∧
        (res.err = none ↔ res.exit = 0))
      (fun _ => by simp) (fun _ _ => by simp)
      (fun _ _ e _ => by simp) (fun _ _ evts e _ _ => by simp)
      (fun _ _ evts asg _ _ =>
        ⟨runSession_exit w _ evts asg, runSession_exit_err w _ evts asg⟩)
  refine ⟨hmain.1, hmain.2, ?_⟩
  rcases hmain.1 with h | h <;> rw [h] <;> decide

/-- Claim C2: on the success path the session operations are issued in
the strict order create-context, enable/arm (control registers then
counter registers), start, stop, read, destroy-context, each exactly
once, with no session operation after destroy-context. -/
theorem success_session_op_order (w : World) (args : List String)
    (h : (runMain w args).err = none) :
    ∃ m pcs pds rs n1 n2,
      (runMain w args).trace.filter Op.isSession =
        [Op.createContext m, Op.enable, Op.writePMCS pcs n1,
         Op.writePMDS pds n2, Op.start, Op.stop, Op.readPMDS rs,
         Op.destroyContext] := by
  obtain ⟨evts, asg, _, _, htr, _, _⟩ := runMain_success w args h
  refine ⟨1 <<< WHICH_CPU, asg, pdArgs asg, asg, asg.length, asg.length, ?_⟩
  rw [htr]
  simp [List.filter_append, resolveLoop_filter_session, successOps,
    Op.isSession]

/-- Witness for C2: the all-success run on the default event list. -/
theorem success_session_op_order_witness :
    (runMain sampleWorld []).err = none ∧
    (∃ m pcs pds rs n1 n2,
      (runMain sampleWorld []).trace.filter Op.isSession =
        [Op.createContext m, Op.enable, Op.writePMCS pcs n1,
         Op.writePMDS pds n2, Op.start, Op.stop, Op.readPMDS rs,
         Op.destroyContext]) :=
  ⟨by decide, success_session_op_order sampleWorld [] (by decide)⟩

/-- Claim C5: on the success path the arm phase first writes the control
configuration for every assignment produced by allocation, then writes
zero as the initial value of every counter register that is later read:
the PMC write precedes the PMD write, the PMD write pairs exactly the
assigned registers with value zero, and the read targets those same
registers. -/
theorem arm_writes_controls_then_zeroed_counters (w : World)
    (args : List String) (h : (runMain w args).err = none) :
    ∃ pre asg,
      (runMain w args).trace =
        pre ++ [Op.createContext (1 <<< WHICH_CPU), Op.enable,
          Op.writePMCS asg asg.length,
          Op.writePMDS (pdArgs asg) asg.length,
          Op.start, Op.stop, Op.readPMDS asg, Op.destroyContext] ∧
      (∀ p ∈ pdArgs asg, p.2 = 0) ∧
      (pdArgs asg).map Prod.fst = asg := by
  obtain ⟨evts, asg, _, _, htr, _, _⟩ := runMain_success w args h
  refine ⟨(resolveLoop w.catalog (eventNames args)).1 ++ [Op.dispatchEvents],
    asg, ?_, ?_, ?_⟩
  · rw [htr]
    simp [successOps]
  · intro p hp
    simp only [pdArgs, List.mem_map] at hp
    obtain ⟨r, _, rfl⟩ := hp
    rfl
  · exact pdArgs_map_fst asg

/-- Witness for C5: the all-success run on the default event list. -/
theorem arm_writes_controls_then_zeroed_counters_witness :
    (runMain sampleWorld []).err = none ∧
    (∃ pre asg,
      (runMain sampleWorld []).trace =
        pre ++ [Op.createContext (1 <<< WHICH_CPU), Op.enable,
          Op.writePMCS asg asg.length,
          Op.writePMDS (pdArgs asg) asg.length,
          Op.start, Op.stop, Op.readPMDS asg, Op.destroyContext] ∧
      (∀ p ∈ pdArgs asg, p.2 = 0) ∧
      (pdArgs asg).map Prod.fst = asg) :=
  ⟨by decide,
   arm_writes_controls_then_zeroed_counters sampleWorld [] (by decide)⟩

/-- Claim C6: on the success path the output contains exactly one row
per requested event, in the original request order, each row carrying
the assigned register index, the raw counter value read for that
register, and the resolved event name. -/
theorem rows_one_per_event_in_request_order (w : World)
    (args : List String) (h : (runMain w args).err = none) :
    ∃ asg, asg.length = (eventNames args).length ∧
      (runMain w args).rows =
        List.zipWith
          (fun r n => { reg := r, value := w.readValues r, name := n })
          asg (eventNames args) ∧
      (runMain w args).rows.length = (eventNames args).length := by
  obtain ⟨evts, asg, hres, hd, _, hrows, _⟩ := runMain_success w args h
  have hf2 := resolveLoop_ok_forall2 w.catalog (eventNames args) evts hres
  have hlen1 : evts.length = (eventNames args).length :=
    (List.Forall₂.length_eq hf2).symm
  have hasg : asg.length = evts.length := by
    unfold pfm_dispatch_events at hd
    split at hd
    · simp at hd
    · exact (allocAux_ok_spec w.elig w.numCounters evts [] asg hd).1
  refine ⟨asg, by omega, ?_, ?_⟩
  · rw [hrows, mkRows_zipWith_names w (eventNames args) evts asg hf2]
  · rw [hrows, mkRows_zipWith_names w (eventNames args) evts asg hf2]
    simp only [List.length_zipWith]
    omega

/-- Witness for C6: the all-success run on the default event list. -/
theorem rows_one_per_event_in_request_order_witness :
    (runMain sampleWorld []).err = none ∧
    (∃ asg, asg.length = (eventNames []).length ∧
      (runMain sampleWorld []).rows =
        List.zipWith
          (fun r n =>
            { reg := r, value := sampleWorld.readValues r, name := n })
          asg (eventNames []) ∧
      (runMain sampleWorld []).rows.length = (eventNames []).length) :=
  ⟨by decide,
   rows_one_per_event_in_request_order sampleWorld [] (by decide)⟩

/-- Claim C4: when some requested event name matches no catalog entry
(and the run got past initialization and the argument-count check),
resolution fails with an unknown-event error naming an uncatalogued
event, the run exits with status 1, and the failure occurs before any
allocation is attempted: neither a dispatch nor any session operation
appears in the trace. -/
theorem unknown_event_fails_before_dispatch (w : World)
    (args : List String) (n : String) (hinit : w.initOk = true)
    (hcap : ¬ w.numCounters < args.length)
    (hn : n ∈ eventNames args)
    (hmiss : pfm_find_event w.catalog n = none) :
    ∃ n2, (runMain w args).err = some (ProgError.UnknownEvent n2) ∧
      pfm_find_event w.catalog n2 = none ∧
      (runMain w args).exit = 1 ∧
      Op.dispatchEvents ∉ (runMain w args).trace ∧
      ∀ m, Op.createContext m ∉ (runMain w args).trace := by
  obtain ⟨e, he⟩ :=
    resolveLoop_error_of_missing w.catalog (eventNames args) ⟨n, hn, hmiss⟩
  obtain ⟨n2, hn2, hmiss2⟩ :=
    resolveLoop_error_unknown w.catalog (eventNames args) e he
  subst hn2
  have hx : runMain w args =
      { exit := 1, err := some (ProgError.UnknownEvent n2),
        trace := (resolveLoop w.catalog (eventNames args)).1,
        rows := [] } := by
    rcases hr : resolveLoop w.catalog (eventNames args) with ⟨rops, res⟩
    rw [hr] at he
    dsimp only at he
    subst he
    simp [runMain, hinit, hcap, hr]
  rw [hx]
  refine ⟨n2, rfl, hmiss2, rfl, ?_, ?_⟩
  · intro hc
    obtain ⟨nn, hnn⟩ :=
      resolveLoop_ops_shape w.catalog (eventNames args) _ hc
    exact Op.noConfusion hnn
  · intro m hc
    obtain ⟨nn, hnn⟩ :=
      resolveLoop_ops_shape w.catalog (eventNames args) _ hc
    exact Op.noConfusion hnn

/-- Witness for C4: the unknown name `bogus_event`. -/
theorem unknown_event_fails_before_dispatch_witness :
    (sampleWorld.initOk = true ∧
      ¬ sampleWorld.numCounters < (["bogus_event"] : List String).length ∧
      "bogus_event" ∈ eventNames ["bogus_event"] ∧
      pfm_find_event sampleWorld.catalog "bogus_event" = none) ∧
    (∃ n2, (runMain sampleWorld ["bogus_event"]).err =
        some (ProgError.UnknownEvent n2) ∧
      pfm_find_event sampleWorld.catalog n2 = none ∧
      (runMain sampleWorld ["bogus_event"]).exit = 1 ∧
      Op.dispatchEvents ∉ (runMain sampleWorld ["bogus_event"]).trace ∧
      ∀ m, Op.createContext m ∉
        (runMain sampleWorld ["bogus_event"]).trace) :=
  ⟨⟨rfl, by decide, by decide, by decide⟩,
   unknown_event_fails_before_dispatch sampleWorld ["bogus_event"]
     "bogus_event" rfl (by decide) (by decide) (by decide)⟩

/-- Claim C7: every create-context call carries the CPU mask
`1 << WHICH_CPU`, a mask with exactly one bit set, so the session is
bound to exactly one CPU. -/
theorem create_context_single_cpu_mask (w : World) (args : List String)
    (m : Nat) (h : Op.createContext m ∈ (runMain w args).trace) :
    m = 1 <<< WHICH_CPU ∧ ∃ k, m = 2 ^ k := by
  have hm : m = 1 <<< WHICH_CPU := by
    have hp := runMain_cases w args
      (fun res => Op.createContext m ∈ res.trace → m = 1 <<< WHICH_CPU)
      (by intro _ hc; simp at hc)
      (by intro _ _ hc; simp at hc)
      ?_ ?_ ?_
    · exact hp h
    · intro _ _ e _ hc
      simp only [List.mem_cons] at hc
      obtain ⟨nn, hnn⟩ :=
        resolveLoop_ops_shape w.catalog (eventNames args) _ hc
      exact Op.noConfusion hnn
    · intro _ _ evts e _ _ hc
      simp only [List.mem_append, List.mem_cons, List.not_mem_nil,
        or_false] at hc
      rcases hc with hc | hc
      · obtain ⟨nn, hnn⟩ :=
          resolveLoop_ops_shape w.catalog (eventNames args) _ hc
        exact Op.noConfusion hnn
      · exact Op.noConfusion hc
    · intro _ _ evts asg _ _ hc
      refine runSession_create_mask w _ evts asg m ?_ hc
      intro m2 hc2
      simp only [List.mem_append, List.mem_cons, List.not_mem_nil,
        or_false] at hc2
      rcases hc2 with hc2 | hc2
      · obtain ⟨nn, hnn⟩ :=
          resolveLoop_ops_shape w.catalog (eventNames args) _ hc2
        exact Op.noConfusion hnn
      · exact Op.noConfusion hc2
  exact ⟨hm, WHICH_CPU, by rw [hm]; decide⟩

/-- Witness for C7: the create-context operation of the all-success run
carries mask 1. -/
theorem create_context_single_cpu_mask_witness :
    Op.createContext 1 ∈ (runMain sampleWorld []).trace ∧
    (1 = 1 <<< WHICH_CPU ∧ ∃ k, 1 = 2 ^ k) :=
  ⟨by decide,
   create_context_single_cpu_mask sampleWorld [] 1 (by decide)⟩

/-- Claim C9: the capacity check counts only the command-line arguments;
a run with no arguments uses the built-in two-entry default event list
and can never fail with the too-many-events error, whatever the
platform's counter capacity. -/
theorem default_event_list_bypasses_capacity_check (w : World)
    (hinit : w.initOk = true) :
    (runMain w []).err ≠ some ProgError.TooManyEvents ∧
    eventNames [] = event_list ∧ event_list.length = 2 := by
  refine ⟨?_, rfl, rfl⟩
  have hp := runMain_cases w ([] : List String)
    (fun res => res.err ≠ some ProgError.TooManyEvents)
    ?_ ?_ ?_ ?_ ?_
  · exact hp
  · intro hf
    rw [hinit] at hf
    exact absurd hf (by simp)
  · intro _ h2
    exact absurd h2 (by simp)
  · intro _ _ e he
    obtain ⟨n2, hn2, -⟩ :=
      resolveLoop_error_unknown w.catalog (eventNames []) e he
    subst hn2
    simp
  · intro _ _ evts e _ _
    simp
  · intro _ _ evts asg _ _
    exact runSession_err_not_toomany w _ evts asg

/-- Witness for C9: even on a platform with zero counters, the
no-argument run is not rejected by the capacity check. -/
theorem default_event_list_bypasses_capacity_check_witness :
    ({ sampleWorld with numCounters := 0 } : World).initOk = true ∧
    ((runMain { sampleWorld with numCounters := 0 } []).err ≠
        some ProgError.TooManyEvents ∧
      eventNames [] = event_list ∧ event_list.length = 2) :=
  ⟨rfl, default_event_list_bypasses_capacity_check
    { sampleWorld with numCounters := 0 } rfl⟩
